import Mathlib

set_option maxRecDepth 8000

/-!
Verification of the saito.js client library: transaction binary codec,
key management and signing, handshake state machine, and connection
lifecycle.  The TypeScript source is shallowly embedded: bytes are `Nat`
values below 256, byte strings are `List Nat`, JavaScript strings are
Lean `String`, and the tweetnacl Ed25519 primitive (an external native
library) is abstracted as a structure of functions together with the
detached-signature soundness property it provides.
-/

namespace Saito

/-! ## Hex encoding and decoding

Node's `Buffer.from(s, 'hex')` decodes two hex digits at a time (upper or
lower case) and truncates at the first invalid pair; a trailing lone digit
is dropped.  `Buffer#toString('hex')` emits lowercase digits. -/

/-- Value of one hex digit character, `none` for a non-hex character.
The ranges are the character codes of `0`-`9`, `a`-`f` and `A`-`F`. -/
def hexDigit? (c : Char) : Option Nat :=
  if 48 ≤ c.toNat ∧ c.toNat ≤ 57 then some (c.toNat - 48)
  else if 97 ≤ c.toNat ∧ c.toNat ≤ 102 then some (c.toNat - 97 + 10)
  else if 65 ≤ c.toNat ∧ c.toNat ≤ 70 then some (c.toNat - 65 + 10)
  else none

/-- Pairwise hex decoding with Node's truncate-at-first-invalid-pair rule. -/
def hexDecodeAux : List Char → List Nat
  | c1 :: c2 :: rest =>
    match hexDigit? c1, hexDigit? c2 with
    | some hi, some lo => (16 * hi + lo) :: hexDecodeAux rest
    | _, _ => []
  | _ => []

/-- `Buffer.from(s, 'hex')` as a list of byte values. -/
def hexDecode (s : String) : List Nat :=
  hexDecodeAux s.data

/-- Lowercase hex digit character for a value below 16. -/
def hexDigitChar (n : Nat) : Char :=
  if n < 10 then Char.ofNat (48 + n) else Char.ofNat (97 + (n - 10))

/-- The two lowercase hex characters of one byte. -/
def hexEncodeByte (b : Nat) : List Char :=
  [hexDigitChar (b % 256 / 16), hexDigitChar (b % 16)]

/-- `Buffer#toString('hex')`: lowercase hex of a byte list. -/
def hexEncode (bs : List Nat) : String :=
  String.mk (bs.map hexEncodeByte).flatten

/-! ## Abstract Ed25519 primitive

`tweetnacl`'s `sign.detached` and `sign.detached.verify` are native
cryptographic code outside this repository; they are abstracted as a pair
of functions on byte lists.  In tweetnacl a 64-byte secret key stores the
32-byte public key as its second half, and `keyPair.fromSecretKey` simply
copies those bytes, which is how `getPublicKey` in the source derives the
public key. -/

structure Ed25519 where
  signDetached : List Nat → List Nat → List Nat
  verifyDetached : List Nat → List Nat → List Nat → Bool

/-- Detached-signature soundness of an Ed25519 implementation: a signature
is 64 bytes of byte values and verifies under the public-key half of the
secret key that produced it. -/
def Ed25519.Sound (e : Ed25519) : Prop :=
  ∀ msg sk : List Nat,
    (e.signDetached msg sk).length = 64 ∧
    (∀ b ∈ e.signDetached msg sk, b < 256) ∧
    e.verifyDetached msg (e.signDetached msg sk) (sk.drop 32) = true

/-! ## crypto key management (`generateKeyPair` / `getPublicKey` /
`isValidPublicKey` / `isValidPrivateKey`) -/

/-- `isValidPublicKey`: decoded length is exactly 32 bytes. -/
def isValidPublicKey (publicKey : String) : Bool :=
  (hexDecode publicKey).length == 32

/-- `isValidPrivateKey`: decoded length is exactly 64 bytes. -/
def isValidPrivateKey (privateKey : String) : Bool :=
  (hexDecode privateKey).length == 64

/-- `getPublicKey`: `nacl.sign.keyPair.fromSecretKey` requires a 64-byte
secret key (otherwise it throws, modelled as `none`) and returns its
second half as the public key, re-encoded as hex. -/
def getPublicKey (privateKey : String) : Option String :=
  let bs := hexDecode privateKey
  if bs.length = 64 then some (hexEncode (bs.drop 32)) else none

/-! ## crypto/sign.ts -/

/-- `sign(data, privateKey)`: hex signature of the detached signature over
the hex-decoded private key. -/
def cryptoSign (e : Ed25519) (data : List Nat) (privateKey : String) : String :=
  hexEncode (e.signDetached data (hexDecode privateKey))

/-- Body of `verify`'s `try` block: `nacl.sign.detached.verify` throws on
a public key that is not 32 bytes or a signature that is not 64 bytes. -/
def verifyE (e : Ed25519) (data : List Nat) (signature publicKey : String) :
    Except String Bool :=
  if (hexDecode publicKey).length ≠ 32 then Except.error "bad public key size"
  else if (hexDecode signature).length ≠ 64 then Except.error "bad signature size"
  else Except.ok (e.verifyDetached data (hexDecode signature) (hexDecode publicKey))

/-- `verify(data, signature, publicKey)`: the `catch` clause turns any
thrown error into `false`. -/
def verify (e : Ed25519) (data : List Nat) (signature publicKey : String) : Bool :=
  match verifyE e data signature publicKey with
  | Except.ok b => b
  | Except.error _ => false

/-! ## wallet/Wallet.ts -/

structure WalletM where
  publicKey : String
  privateKey : String
  deriving DecidableEq

namespace Wallet

/-- The `Wallet` constructor: throws `Invalid private key` (modelled as
`none`) unless `isValidPrivateKey` holds, then stores the private key and
the derived public key.  `fromPrivateKey` simply calls the constructor. -/
def fromPrivateKey (privateKey : String) : Option WalletM :=
  if isValidPrivateKey privateKey then
    some { publicKey := hexEncode ((hexDecode privateKey).drop 32),
           privateKey := privateKey }
  else none

/-- `Wallet#sign(data)`: detached signature over the hex-decoded stored
private key, returned as hex. -/
def sign (e : Ed25519) (w : WalletM) (data : List Nat) : String :=
  hexEncode (e.signDetached data (hexDecode w.privateKey))

end Wallet

/-! ## transaction/Transaction.ts

`from` is a Lean keyword, so the `from` and `to` slip arrays are named
`fromSlips` and `toSlips`.  Slip and transaction `type` enums are stored
as their numeric values.  `timestamp` and slip `amount` are written with
`writeBigUInt64BE`, whose in-range behaviour is the 8 big-endian bytes of
the value modulo 2^64; counts and the data length use `writeUInt32BE`. -/

structure SlipM where
  publicKey : String
  amount : Nat
  type : Nat
  deriving DecidableEq

structure TransactionM where
  timestamp : Nat
  fromSlips : List SlipM
  toSlips : List SlipM
  data : List Nat
  signature : String
  type : Nat
  txs_replacements : Nat
  deriving DecidableEq

/-- 8 big-endian bytes of `n % 2^64` (`writeBigUInt64BE`). -/
def u64be (n : Nat) : List Nat :=
  [n / 2 ^ 56 % 256, n / 2 ^ 48 % 256, n / 2 ^ 40 % 256, n / 2 ^ 32 % 256,
   n / 2 ^ 24 % 256, n / 2 ^ 16 % 256, n / 2 ^ 8 % 256, n % 256]

/-- 4 big-endian bytes of `n % 2^32` (`writeUInt32BE`). -/
def u32be (n : Nat) : List Nat :=
  [n / 2 ^ 24 % 256, n / 2 ^ 16 % 256, n / 2 ^ 8 % 256, n % 256]

namespace Transaction

/-- `Transaction#serializeSlip`: raw public key bytes, 8-byte big-endian
amount, 1-byte type (`Buffer.from([slip.type])` keeps the low byte). -/
def serializeSlip (slip : SlipM) : List Nat :=
  hexDecode slip.publicKey ++ u64be slip.amount ++ [slip.type % 256]

/-- `Transaction#serialize(includeSignature)`: the `parts` array the
source accumulates, flattened.  The signature part is appended only when
`includeSignature && this.signature` is truthy, i.e. the signature string
is non-empty. -/
def serialize (tx : TransactionM) (includeSignature : Bool) : List Nat :=
  ([u64be tx.timestamp, u32be tx.fromSlips.length] ++
    tx.fromSlips.map serializeSlip ++
    [u32be tx.toSlips.length] ++
    tx.toSlips.map serializeSlip ++
    [u32be tx.data.length, tx.data, [tx.type % 256]] ++
    (if includeSignature && !(tx.signature == "") then [hexDecode tx.signature]
     else [])).flatten

/-- `Transaction#sign(wallet)`: signs `serialize(false)` and stores the
hex signature. -/
def sign (e : Ed25519) (tx : TransactionM) (w : WalletM) : TransactionM :=
  { tx with signature := Wallet.sign e w (serialize tx false) }

end Transaction

/-! ## Binary transaction decoder

Modelled from the spec: the repository ships `serialize` but no binary
decoder (only the JSON `fromJSON`); §4.3 of the specification defines
decoding as the exact inverse of the §4.3 byte layout, rejecting
truncated input (a `MalformedTransactionError`, modelled as `none`).  The
trailing signature is present exactly when 64 bytes follow the type
byte; decoded transactions carry the constructor default
`txs_replacements = 1`, since that field is not part of the wire
layout. -/

/-- Read an 8-byte big-endian unsigned integer. -/
def readU64 : List Nat → Option (Nat × List Nat)
  | b0 :: b1 :: b2 :: b3 :: b4 :: b5 :: b6 :: b7 :: rest =>
    some (b0 * 2 ^ 56 + b1 * 2 ^ 48 + b2 * 2 ^ 40 + b3 * 2 ^ 32 +
          b4 * 2 ^ 24 + b5 * 2 ^ 16 + b6 * 2 ^ 8 + b7, rest)
  | _ => none

/-- Read a 4-byte big-endian unsigned integer. -/
def readU32 : List Nat → Option (Nat × List Nat)
  | b0 :: b1 :: b2 :: b3 :: rest =>
    some (b0 * 2 ^ 24 + b1 * 2 ^ 16 + b2 * 2 ^ 8 + b3, rest)
  | _ => none

/-- Read exactly `n` raw bytes, rejecting truncated input. -/
def readBytes (n : Nat) (l : List Nat) : Option (List Nat × List Nat) :=
  if n ≤ l.length then some (l.take n, l.drop n) else none

/-- Read one slip: 32 raw public-key bytes, amount, type byte. -/
def readSlip (l : List Nat) : Option (SlipM × List Nat) :=
  match readBytes 32 l with
  | none => none
  | some (pk, l1) =>
    match readU64 l1 with
    | none => none
    | some (amount, l2) =>
      match l2 with
      | [] => none
      | t :: l3 => some ({ publicKey := hexEncode pk, amount := amount, type := t }, l3)

/-- Read `n` consecutive slips. -/
def readSlips : Nat → List Nat → Option (List SlipM × List Nat)
  | 0, l => some ([], l)
  | n + 1, l =>
    match readSlip l with
    | none => none
    | some (s, l1) =>
      match readSlips n l1 with
      | none => none
      | some (ss, l2) => some (s :: ss, l2)

/-- Decode a serialized transaction, the inverse of
`Transaction.serialize`. -/
def deserializeTransaction (l : List Nat) : Option TransactionM :=
  match readU64 l with
  | none => none
  | some (ts, l1) =>
    match readU32 l1 with
    | none => none
    | some (nf, l2) =>
      match readSlips nf l2 with
      | none => none
      | some (fs, l3) =>
        match readU32 l3 with
        | none => none
        | some (nt, l4) =>
          match readSlips nt l4 with
          | none => none
          | some (tos, l5) =>
            match readU32 l5 with
            | none => none
            | some (dl, l6) =>
              match readBytes dl l6 with
              | none => none
              | some (dat, l7) =>
                match l7 with
                | [] => none
                | t :: rest =>
                  if rest.length = 64 then
                    some { timestamp := ts, fromSlips := fs, toSlips := tos,
                           data := dat, signature := hexEncode rest, type := t,
                           txs_replacements := 1 }
                  else if rest.length = 0 then
                    some { timestamp := ts, fromSlips := fs, toSlips := tos,
                           data := dat, signature := "", type := t,
                           txs_replacements := 1 }
                  else none

/-! ## client/SaitoClient.ts

The client state carried by the socket-lifecycle and handshake handlers.
The WebSocket object itself is reduced to the `socketOpen` flag; the
`version: 5.677` float field of the advertised peer info is outside the
embedding (floating point) and omitted. -/

structure PeerInfoM where
  publicKey : String
  host : String
  port : Nat
  protocol : String
  synctype : String
  sendblks : Nat
  sendtxs : Nat
  sendgts : Nat
  receiveblks : Nat
  receivetxs : Nat
  receivegts : Nat
  keylist : List String
  deriving DecidableEq

/-- A handshake payload.  `step` is a JavaScript number compared with
`=== 1` and `>= 3`, modelled as an integer. -/
structure HandshakeMsg where
  step : Int
  ts : Nat
  challenge_mine : Nat
  challenge_peer : Option Nat
  challenge_proof : Option String
  peer : PeerInfoM
  modules : List String
  services : List String
  deriving DecidableEq

structure ClientState where
  connected : Bool
  handshakeComplete : Bool
  reconnectAttempts : Nat
  maxReconnectAttempts : Nat
  autoReconnect : Bool
  reconnectDelay : Nat
  socketOpen : Bool
  deriving DecidableEq

namespace SaitoClient

/-- Decimal digits of a challenge number as UTF-8 bytes
(`Buffer.from(challenge.toString(), 'utf-8')`). -/
def natToUtf8 (n : Nat) : List Nat :=
  (Nat.repr n).data.map Char.toNat

/-- `SaitoClient#signChallenge`: the wallet's signature over the UTF-8
bytes of the challenge's decimal string. -/
def signChallenge (e : Ed25519) (w : WalletM) (challenge : Nat) : String :=
  Wallet.sign e w (natToUtf8 challenge)

/-- `SaitoClient#handleHandshake`.  Inputs beyond the state and message:
the wallet, the configured synctype, `Date.now()` and the fresh
`Math.random()` challenge, both passed explicitly.  Output: the new
state, the list of transmitted handshake messages, and the list of
locally emitted event names. -/
def handleHandshake (e : Ed25519) (w : WalletM) (synctype : String)
    (now fresh : Nat) (st : ClientState) (d : HandshakeMsg) :
    ClientState × List HandshakeMsg × List String :=
  if d.step = 1 then
    (st,
     [{ step := 2, ts := now, challenge_mine := fresh,
        challenge_peer := some d.challenge_mine,
        challenge_proof := some (signChallenge e w d.challenge_mine),
        peer := { publicKey := w.publicKey, host := "", port := 0, protocol := "",
                  synctype := synctype, sendblks := 0, sendtxs := 1, sendgts := 0,
                  receiveblks := if synctype ≠ "none" then 1 else 0,
                  receivetxs := 1, receivegts := 0,
                  keylist := [w.publicKey] },
        modules := [], services := [] }],
     [])
  else if 3 ≤ d.step then
    ({ st with handshakeComplete := true }, [], ["handshake-complete"])
  else
    (st, [], [])

/-- The socket `open` handler: sets `connected` and resets the reconnect
attempt counter to zero. -/
def handleOpen (st : ClientState) : ClientState :=
  { st with connected := true, socketOpen := true, reconnectAttempts := 0 }

/-- The socket `close` handler: clears `connected` and
`handshakeComplete`, then schedules exactly one delayed reconnect
(`setTimeout(connect, reconnectDelay)`) when `autoReconnect` holds and
the attempt counter is below the maximum, incrementing the counter.  The
boolean result records whether a reconnect was scheduled. -/
def handleClose (st : ClientState) : ClientState × Bool :=
  let st1 := { st with connected := false, handshakeComplete := false,
                       socketOpen := false }
  if st1.autoReconnect && decide (st1.reconnectAttempts < st1.maxReconnectAttempts) then
    ({ st1 with reconnectAttempts := st1.reconnectAttempts + 1 }, true)
  else
    (st1, false)

/-- `SaitoClient#disconnect`: permanently clears the stored
`autoReconnect` configuration flag and closes the socket. -/
def disconnect (st : ClientState) : ClientState :=
  { st with autoReconnect := false, socketOpen := false }

/-- Socket lifecycle events the client reacts to.  A `connect()` call
creates a socket and registers handlers; it touches neither the
`autoReconnect` configuration nor the attempt counter. -/
inductive ClientEvent where
  | socketOpened
  | socketClosed
  | connectCalled
  | disconnectCalled
  deriving DecidableEq

/-- One event step: the resulting state and whether this event scheduled
an automatic reconnect. -/
def stepEvent (st : ClientState) : ClientEvent → ClientState × Bool
  | ClientEvent.socketOpened => (handleOpen st, false)
  | ClientEvent.socketClosed => handleClose st
  | ClientEvent.connectCalled => ({ st with socketOpen := false }, false)
  | ClientEvent.disconnectCalled => (disconnect st, false)

/-- Run a sequence of events; the boolean records whether any event in
the sequence scheduled an automatic reconnect. -/
def runEvents (st : ClientState) : List ClientEvent → ClientState × Bool
  | [] => (st, false)
  | ev :: rest =>
    let r := stepEvent st ev
    let r2 := runEvents r.1 rest
    (r2.1, r.2 || r2.2)

/-! ### The `connect()` promise

`connect()` registers `once('handshake-complete', resolve)` and an
unconditional `setTimeout` of 30 000 ms whose callback rejects with the
handshake-timeout error unless the `handshakeComplete` flag is set; a
promise settles once, with the earliest settlement winning.  The model
takes the time (relative to the call) at which the handshake-complete
event fires, if ever, and whether a socket close reset the flag again
before the 30 000 ms deadline; socket error events are outside this
model. -/

inductive ConnectOutcome where
  | resolved
  | rejectedHandshakeTimeout
  | pending
  deriving DecidableEq

/-- The `handshakeComplete` flag at the moment the 30 000 ms timer fires:
set when the completion event fired strictly before the timer and no
close event reset it in between (an event in the same tick as the timer
is ordered after it). -/
def flagAtDeadline (hcTime : Option Nat) (resetBeforeDeadline : Bool) : Bool :=
  match hcTime with
  | some t => decide (t < 30000) && !resetBeforeDeadline
  | none => false

/-- Settlement of the promise returned by `connect()`: resolution at the
completion event if it fires before the deadline, otherwise the timer
callback at 30 000 ms rejects exactly when the flag is clear. -/
def connectOutcome (hcTime : Option Nat) (resetBeforeDeadline : Bool) : ConnectOutcome :=
  match hcTime with
  | some t =>
    if t < 30000 then ConnectOutcome.resolved
    else if flagAtDeadline hcTime resetBeforeDeadline then ConnectOutcome.pending
    else ConnectOutcome.rejectedHandshakeTimeout
  | none =>
    if flagAtDeadline none resetBeforeDeadline then ConnectOutcome.pending
    else ConnectOutcome.rejectedHandshakeTimeout

end SaitoClient

/-! ## Helper lemmas about the hex codec -/

theorem hexDigit?_lt {c : Char} {d : Nat} (h : hexDigit? c = some d) : d < 16 := by
  unfold hexDigit? at h
  split at h
  next hc => injection h with h; omega
  next =>
    split at h
    next hc => injection h with h; omega
    next =>
      split at h
      next hc => injection h with h; omega
      next => exact absurd h (by simp)

theorem hexDecodeAux_lt : ∀ (l : List Char), ∀ b ∈ hexDecodeAux l, b < 256
  | [] => by simp [hexDecodeAux]
  | [c] => by simp [hexDecodeAux]
  | c1 :: c2 :: rest => by
    intro b hb
    unfold hexDecodeAux at hb
    cases h1 : hexDigit? c1 with
    | none => simp [h1] at hb
    | some hi =>
      cases h2 : hexDigit? c2 with
      | none => simp [h1, h2] at hb
      | some lo =>
        simp only [h1, h2, List.mem_cons] at hb
        rcases hb with h | h
        · have hhi := hexDigit?_lt h1
          have hlo := hexDigit?_lt h2
          omega
        · exact hexDecodeAux_lt rest b h

theorem hexDecode_lt (s : String) : ∀ b ∈ hexDecode s, b < 256 :=
  hexDecodeAux_lt s.data

theorem hexDigit?_hexDigitChar : ∀ d, d < 16 → hexDigit? (hexDigitChar d) = some d := by
  decide

theorem hexDecodeAux_encodeByte (b : Nat) (hb : b < 256) (rest : List Char) :
    hexDecodeAux (hexEncodeByte b ++ rest) = b :: hexDecodeAux rest := by
  have h1 : hexDigit? (hexDigitChar (b % 256 / 16)) = some (b % 256 / 16) :=
    hexDigit?_hexDigitChar _ (by omega)
  have h2 : hexDigit? (hexDigitChar (b % 16)) = some (b % 16) :=
    hexDigit?_hexDigitChar _ (by omega)
  have hval : 16 * (b % 256 / 16) + b % 16 = b := by omega
  simp only [hexEncodeByte, List.cons_append, List.nil_append, hexDecodeAux, h1, h2, hval]
  rfl

theorem hexDecode_hexEncode (bs : List Nat) (h : ∀ b ∈ bs, b < 256) :
    hexDecode (hexEncode bs) = bs := by
  show hexDecodeAux (bs.map hexEncodeByte).flatten = bs
  induction bs with
  | nil => rfl
  | cons b rest ih =>
    simp only [List.map_cons, List.flatten_cons]
    rw [hexDecodeAux_encodeByte b (h b (by simp))]
    rw [ih (fun x hx => h x (by simp [hx]))]

theorem hexDecodeAux_length :
    ∀ (l : List Char), (∀ c ∈ l, (hexDigit? c).isSome) →
      (hexDecodeAux l).length = l.length / 2
  | [], _ => rfl
  | [c], _ => by simp [hexDecodeAux]
  | c1 :: c2 :: rest, h => by
    have h1 : (hexDigit? c1).isSome := h c1 (by simp)
    have h2 : (hexDigit? c2).isSome := h c2 (by simp)
    obtain ⟨hi, e1⟩ := Option.isSome_iff_exists.mp h1
    obtain ⟨lo, e2⟩ := Option.isSome_iff_exists.mp h2
    have ih := hexDecodeAux_length rest (fun c hc => h c (by simp [hc]))
    simp only [hexDecodeAux, e1, e2, List.length_cons, ih]
    omega

/-! ## Helper lemmas about wallets and signing -/

theorem fromPrivateKey_inv {s : String} {w : WalletM}
    (hw : Wallet.fromPrivateKey s = some w) :
    (hexDecode s).length = 64 ∧ w.privateKey = s ∧
      w.publicKey = hexEncode ((hexDecode s).drop 32) := by
  unfold Wallet.fromPrivateKey isValidPrivateKey at hw
  split at hw
  next hc =>
    injection hw with hw
    subst hw
    exact ⟨by simpa using hc, rfl, rfl⟩
  next => exact absurd hw (by simp)

theorem verify_wallet_sign (e : Ed25519) (he : e.Sound) (s : String) (w : WalletM)
    (hw : Wallet.fromPrivateKey s = some w) (msg : List Nat) :
    verify e msg (Wallet.sign e w msg) w.publicKey = true := by
  obtain ⟨hlen, hpriv, hpub⟩ := fromPrivateKey_inv hw
  obtain ⟨hsl, hsb, hv⟩ := he msg (hexDecode s)
  have hpkbytes : ∀ b ∈ (hexDecode s).drop 32, b < 256 :=
    fun b hb => hexDecode_lt s b (List.mem_of_mem_drop hb)
  unfold verify verifyE Wallet.sign
  rw [hpriv, hpub]
  rw [hexDecode_hexEncode _ hsb, hexDecode_hexEncode _ hpkbytes]
  have hpk : ((hexDecode s).drop 32).length = 32 := by
    rw [List.length_drop, hlen]
  simp [hpk, hsl, hv]

/-! ## Concrete material used by witnesses -/

/-- A trivial Ed25519 implementation used to instantiate the abstract
primitive in witnesses. -/
def trivialEd : Ed25519 where
  signDetached := fun _ _ => List.replicate 64 0
  verifyDetached := fun _ sig _ => sig == List.replicate 64 0

theorem trivialEd_sound : trivialEd.Sound := by
  intro msg sk
  refine ⟨by simp [trivialEd], ?_, by simp [trivialEd]⟩
  intro b hb
  simp only [trivialEd, List.mem_replicate] at hb
  omega

/-- A canonical all-zero 64-byte private key. -/
def zeroSk : String := hexEncode (List.replicate 64 0)

/-- The wallet built from `zeroSk`. -/
def wZero : WalletM where
  publicKey := hexEncode (List.replicate 32 0)
  privateKey := zeroSk

theorem fromPrivateKey_zeroSk : Wallet.fromPrivateKey zeroSk = some wZero := by
  have hdec : hexDecode zeroSk = List.replicate 64 0 :=
    hexDecode_hexEncode _ (by simp)
  unfold Wallet.fromPrivateKey isValidPrivateKey wZero
  rw [hdec]
  simp [List.drop_replicate, zeroSk]

/-- An empty concrete transaction. -/
def txEmpty : TransactionM where
  timestamp := 0
  fromSlips := []
  toSlips := []
  data := []
  signature := ""
  type := 0
  txs_replacements := 1

/-- A concrete slip with a canonical 32-byte public key. -/
def slipOne : SlipM where
  publicKey := hexEncode (List.replicate 32 1)
  amount := 5
  type := 0

/-- A concrete transaction with one slip on each side and two data
bytes. -/
def txOne : TransactionM where
  timestamp := 1
  fromSlips := [slipOne]
  toSlips := [slipOne]
  data := [7, 8]
  signature := ""
  type := 0
  txs_replacements := 1

theorem hexDecode_slipOne : hexDecode slipOne.publicKey = List.replicate 32 1 :=
  hexDecode_hexEncode _ (by simp)

/-- A concrete peer-info record with empty fields. -/
def peerDefault : PeerInfoM where
  publicKey := ""
  host := ""
  port := 0
  protocol := ""
  synctype := "none"
  sendblks := 0
  sendtxs := 0
  sendgts := 0
  receiveblks := 0
  receivetxs := 0
  receivegts := 0
  keylist := []

/-- A concrete inbound step-1 handshake message. -/
def msgStep1 : HandshakeMsg where
  step := 1
  ts := 0
  challenge_mine := 42
  challenge_peer := none
  challenge_proof := none
  peer := peerDefault
  modules := []
  services := []

/-- A concrete freshly-constructed client state. -/
def stInit : ClientState where
  connected := false
  handshakeComplete := false
  reconnectAttempts := 0
  maxReconnectAttempts := 10
  autoReconnect := true
  reconnectDelay := 3000
  socketOpen := false

/-- A concrete transaction differing from the defaults only in
`txs_replacements`. -/
def txRep2 : TransactionM where
  timestamp := 0
  fromSlips := []
  toSlips := []
  data := []
  signature := ""
  type := 0
  txs_replacements := 2

/-- A concrete transaction carrying a canonical 128-hex-character
signature. -/
def txSigned : TransactionM where
  timestamp := 0
  fromSlips := []
  toSlips := []
  data := []
  signature := hexEncode (List.replicate 64 2)
  type := 0
  txs_replacements := 1

/-! ## Helper lemmas about the binary codec -/

/-- The parts list of `serialize(false)`, flattened into the plain
byte-level concatenation of the wire layout. -/
theorem serialize_false_parts (tx : TransactionM) :
    Transaction.serialize tx false =
      u64be tx.timestamp ++ (u32be tx.fromSlips.length ++
        ((tx.fromSlips.map Transaction.serializeSlip).flatten ++
          (u32be tx.toSlips.length ++
            ((tx.toSlips.map Transaction.serializeSlip).flatten ++
              (u32be tx.data.length ++ (tx.data ++ [tx.type % 256])))))) := by
  simp [Transaction.serialize, List.flatten_append, List.append_assoc]

/-- `serialize(true)` on a transaction with a non-empty signature string
appends the hex-decoded signature bytes to the unsigned layout. -/
theorem serialize_true_parts (tx : TransactionM) (h : tx.signature ≠ "") :
    Transaction.serialize tx true =
      Transaction.serialize tx false ++ hexDecode tx.signature := by
  have hbe : (tx.signature == "") = false := beq_eq_false_iff_ne.mpr h
  simp [Transaction.serialize, hbe, List.flatten_append, List.append_assoc]

/-- `serialize(true)` on a transaction with an empty signature string is
the unsigned layout unchanged. -/
theorem serialize_true_empty (tx : TransactionM) (h : tx.signature = "") :
    Transaction.serialize tx true = Transaction.serialize tx false := by
  simp [Transaction.serialize, h]

theorem serializeSlip_length (s0 : SlipM) (h : (hexDecode s0.publicKey).length = 32) :
    (Transaction.serializeSlip s0).length = 41 := by
  simp [Transaction.serializeSlip, u64be, h]

theorem flatten_serializeSlip_length (l : List SlipM)
    (h : ∀ s0 ∈ l, (hexDecode s0.publicKey).length = 32) :
    ((l.map Transaction.serializeSlip).flatten).length = 41 * l.length := by
  induction l with
  | nil => simp
  | cons a rest ih =>
    simp only [List.map_cons, List.flatten_cons, List.length_append, List.length_cons]
    rw [serializeSlip_length a (h a (by simp)), ih (fun s0 hs => h s0 (by simp [hs]))]
    ring

theorem readU64_u64be (n : Nat) (rest : List Nat) :
    readU64 (u64be n ++ rest) = some (n % 2 ^ 64, rest) := by
  simp only [u64be, List.cons_append, List.nil_append, readU64, Option.some.injEq,
    Prod.mk.injEq, and_true]
  omega

theorem readU32_u32be (n : Nat) (rest : List Nat) :
    readU32 (u32be n ++ rest) = some (n % 2 ^ 32, rest) := by
  simp only [u32be, List.cons_append, List.nil_append, readU32, Option.some.injEq,
    Prod.mk.injEq, and_true]
  omega

theorem readBytes_exact (xs rest : List Nat) :
    readBytes xs.length (xs ++ rest) = some (xs, rest) := by
  unfold readBytes
  rw [if_pos (by simp)]
  simp

/-- A slip in canonical form: its public key string is the lowercase hex
of exactly 32 bytes and its numeric fields are in range. -/
def SlipM.Canonical (s0 : SlipM) : Prop :=
  hexEncode (hexDecode s0.publicKey) = s0.publicKey ∧
  (hexDecode s0.publicKey).length = 32 ∧ s0.amount < 2 ^ 64 ∧ s0.type < 256

instance (s0 : SlipM) : Decidable s0.Canonical := by
  unfold SlipM.Canonical
  infer_instance

theorem readSlip_serializeSlip (s0 : SlipM) (hc : s0.Canonical) (rest : List Nat) :
    readSlip (Transaction.serializeSlip s0 ++ rest) = some (s0, rest) := by
  obtain ⟨henc, hlen, hamt, htype⟩ := hc
  have h1 : readBytes 32 (hexDecode s0.publicKey ++
      (u64be s0.amount ++ s0.type :: rest)) =
      some (hexDecode s0.publicKey, u64be s0.amount ++ s0.type :: rest) := by
    rw [← hlen]
    exact readBytes_exact _ _
  simp only [Transaction.serializeSlip, List.append_assoc, List.cons_append,
    List.nil_append, Nat.mod_eq_of_lt htype, readSlip, h1,
    readU64_u64be, Nat.mod_eq_of_lt hamt, henc]

theorem readSlips_serialize (l : List SlipM) (hc : ∀ s0 ∈ l, s0.Canonical)
    (rest : List Nat) :
    readSlips l.length ((l.map Transaction.serializeSlip).flatten ++ rest) =
      some (l, rest) := by
  induction l with
  | nil => simp [readSlips]
  | cons a tail ih =>
    simp only [List.map_cons, List.flatten_cons, List.length_cons, List.append_assoc,
      readSlips, readSlip_serializeSlip a (hc a (by simp)),
      ih (fun s0 hs => hc s0 (by simp [hs]))]

/-- A transaction in canonical form: every hex-string field is the
lowercase hex of its byte value, integer fields are in the range their
fixed-width wire encoding can carry, and `txs_replacements` holds its
constructor default (it is not part of the wire layout). -/
def TransactionM.Canonical (tx : TransactionM) : Prop :=
  tx.timestamp < 2 ^ 64 ∧
  tx.fromSlips.length < 2 ^ 32 ∧ tx.toSlips.length < 2 ^ 32 ∧
  (∀ s0 ∈ tx.fromSlips, s0.Canonical) ∧ (∀ s0 ∈ tx.toSlips, s0.Canonical) ∧
  tx.data.length < 2 ^ 32 ∧
  (tx.signature = "" ∨
    (hexEncode (hexDecode tx.signature) = tx.signature ∧
      (hexDecode tx.signature).length = 64)) ∧
  tx.type < 256 ∧ tx.txs_replacements = 1

instance (tx : TransactionM) : Decidable tx.Canonical := by
  unfold TransactionM.Canonical
  infer_instance

/-! ## Claim theorems -/

/-- C1: for every transaction and every wallet built from a valid
64-byte private key, `sign(wallet)` stores exactly the wallet's detached
Ed25519 signature over `serialize(false)`, the signing payload is the
signature-free serialization (unchanged by signing), and
`verify(serialize(false), signature, publicKey)` returns true. -/
theorem c1_sign_verify (e : Ed25519) (he : e.Sound) (tx : TransactionM)
    (s : String) (w : WalletM) (hw : Wallet.fromPrivateKey s = some w) :
    (Transaction.sign e tx w).signature =
      hexEncode (e.signDetached (Transaction.serialize tx false)
        (hexDecode w.privateKey)) ∧
    Transaction.serialize (Transaction.sign e tx w) false =
      Transaction.serialize tx false ∧
    verify e (Transaction.serialize (Transaction.sign e tx w) false)
      (Transaction.sign e tx w).signature w.publicKey = true := by
  have hser : Transaction.serialize (Transaction.sign e tx w) false =
      Transaction.serialize tx false := by
    simp [Transaction.sign, Transaction.serialize]
  refine ⟨rfl, hser, ?_⟩
  rw [hser]
  exact verify_wallet_sign e he s w hw (Transaction.serialize tx false)

/-- Witness for C1 at the trivial Ed25519 instance, the all-zero wallet
and the empty transaction. -/
theorem c1_sign_verify_witness :
    verify trivialEd
      (Transaction.serialize (Transaction.sign trivialEd txEmpty wZero) false)
      (Transaction.sign trivialEd txEmpty wZero).signature wZero.publicKey = true :=
  (c1_sign_verify trivialEd trivialEd_sound txEmpty zeroSk wZero
    fromPrivateKey_zeroSk).2.2

/-- C2: for a transaction whose slip public keys each decode to 32
bytes, `serialize(false)` is exactly the concatenation of the 8-byte
big-endian timestamp, 4-byte from-count, the 41-byte from-slips, 4-byte
to-count, the 41-byte to-slips, 4-byte data length, the data bytes and
the 1-byte type, so its total length is
`21 + 41 * (from-count + to-count) + data-length`. -/
theorem c2_serialize_layout (tx : TransactionM)
    (h : ∀ s0 ∈ tx.fromSlips ++ tx.toSlips, (hexDecode s0.publicKey).length = 32) :
    Transaction.serialize tx false =
      u64be tx.timestamp ++ u32be tx.fromSlips.length ++
        (tx.fromSlips.map Transaction.serializeSlip).flatten ++
        u32be tx.toSlips.length ++
        (tx.toSlips.map Transaction.serializeSlip).flatten ++
        u32be tx.data.length ++ tx.data ++ [tx.type % 256] ∧
    (Transaction.serialize tx false).length =
      21 + 41 * (tx.fromSlips.length + tx.toSlips.length) + tx.data.length := by
  have heq := serialize_false_parts tx
  have hf : ∀ s0 ∈ tx.fromSlips, (hexDecode s0.publicKey).length = 32 :=
    fun s0 hs => h s0 (List.mem_append_left _ hs)
  have ht : ∀ s0 ∈ tx.toSlips, (hexDecode s0.publicKey).length = 32 :=
    fun s0 hs => h s0 (List.mem_append_right _ hs)
  constructor
  · rw [heq]
    simp [List.append_assoc]
  · rw [heq]
    simp only [List.length_append, flatten_serializeSlip_length tx.fromSlips hf,
      flatten_serializeSlip_length tx.toSlips ht, u64be, u32be, List.length_cons,
      List.length_nil]
    ring

/-- Witness for C2 at a transaction with one canonical slip on each side
and two data bytes. -/
theorem c2_serialize_layout_witness :
    (Transaction.serialize txOne false).length = 21 + 41 * (1 + 1) + 2 :=
  (c2_serialize_layout txOne (by
    intro s0 hs
    simp only [txOne, List.cons_append, List.nil_append, List.mem_cons,
      List.not_mem_nil, or_false] at hs
    rcases hs with h | h <;>
      simp [h, hexDecode_slipOne])).2

/-- C3: `serialize(true)` equals `serialize(false)` byte for byte when no
signature has been computed, and equals `serialize(false)` followed by
the 64 raw signature bytes (hence is strictly longer) when the signature
is a non-empty 128-hex-character string. -/
theorem c3_signature_suffix (tx : TransactionM) :
    (tx.signature = "" →
      Transaction.serialize tx true = Transaction.serialize tx false) ∧
    (tx.signature.data.length = 128 →
      (∀ c ∈ tx.signature.data, (hexDigit? c).isSome) →
      Transaction.serialize tx true =
        Transaction.serialize tx false ++ hexDecode tx.signature ∧
      (hexDecode tx.signature).length = 64 ∧
      (Transaction.serialize tx false).length <
        (Transaction.serialize tx true).length) := by
  constructor
  · exact serialize_true_empty tx
  · intro h128 hvalid
    have hne : tx.signature ≠ "" := by
      intro h0
      rw [h0] at h128
      exact absurd h128 (by decide)
    have happ := serialize_true_parts tx hne
    have hlen : (hexDecode tx.signature).length = 64 := by
      unfold hexDecode
      rw [hexDecodeAux_length _ hvalid, h128]
    refine ⟨happ, hlen, ?_⟩
    rw [happ]
    simp [hlen]

/-- Witness for C3 at a transaction carrying a canonical 128-hex-char
signature. -/
theorem c3_signature_suffix_witness :
    Transaction.serialize txSigned true =
      Transaction.serialize txSigned false ++ hexDecode txSigned.signature :=
  ((c3_signature_suffix txSigned).2 (by decide) (by decide)).1

/-- C4 counterexample: `txs_replacements` is not part of the wire
layout, so a transaction with `txs_replacements = 2` (and otherwise
default fields) does not decode back to itself; it even shares its
encoding with the default transaction, so no decoder whatsoever can be
the exact inverse of `serialize` on every transaction. -/
theorem c4_roundtrip_counterexample :
    deserializeTransaction (Transaction.serialize txRep2 true) ≠ some txRep2 ∧
    Transaction.serialize txRep2 true = Transaction.serialize txEmpty true ∧
    txRep2 ≠ txEmpty := by
  decide

/-- C4 (amended): for every canonical transaction — slip public keys
and signature are canonical lowercase hex of 32 and 64 bytes, integer
fields in wire range, `txs_replacements` at its default 1 — with any
number of slips (including zero) and any data bytes (including empty),
decoding inverts `serialize`. -/
theorem c4_roundtrip (tx : TransactionM) (hc : tx.Canonical) :
    deserializeTransaction (Transaction.serialize tx true) = some tx := by
  cases tx with
  | mk ts fs tos dat sig ty rep =>
    unfold TransactionM.Canonical at hc
    simp only at hc
    obtain ⟨hts, hnf, hnt, hcf, hct, hdl, hsig, hty, hrep⟩ := hc
    subst hrep
    rcases hsig with hsig | ⟨hsenc, hslen⟩
    · subst hsig
      rw [serialize_true_empty _ rfl, serialize_false_parts]
      dsimp only
      simp only [List.append_assoc, List.cons_append, List.nil_append,
        Nat.mod_eq_of_lt hty, deserializeTransaction,
        readU64_u64be, Nat.mod_eq_of_lt hts,
        readU32_u32be, Nat.mod_eq_of_lt hnf, Nat.mod_eq_of_lt hnt,
        Nat.mod_eq_of_lt hdl,
        readSlips_serialize fs hcf, readSlips_serialize tos hct,
        readBytes_exact, List.length_nil]
      norm_num
    · have hne : sig ≠ "" := by
        intro h0
        rw [h0] at hslen
        exact absurd hslen (by decide)
      rw [serialize_true_parts _ hne, serialize_false_parts]
      dsimp only
      simp only [List.append_assoc, List.cons_append, List.nil_append,
        Nat.mod_eq_of_lt hty, deserializeTransaction,
        readU64_u64be, Nat.mod_eq_of_lt hts,
        readU32_u32be, Nat.mod_eq_of_lt hnf, Nat.mod_eq_of_lt hnt,
        Nat.mod_eq_of_lt hdl,
        readSlips_serialize fs hcf, readSlips_serialize tos hct,
        readBytes_exact, hslen, hsenc]
      norm_num

/-- Witness for C4 at a canonical transaction with one slip on each side
and two data bytes. -/
theorem c4_roundtrip_witness :
    txOne.Canonical ∧
      deserializeTransaction (Transaction.serialize txOne true) = some txOne :=
  ⟨by decide, c4_roundtrip txOne (by decide)⟩

/-- C5: on an inbound step-1 handshake message the client transmits
exactly one response, with step 2, `challenge_peer` equal to the
message's `challenge_mine`, and a `challenge_proof` that is the wallet's
signature over the UTF-8 bytes of the challenge's decimal string and
verifies under the wallet's public key; on step >= 3 it marks the
handshake complete and signals readiness; on any other step it changes
no state and emits nothing; and every message it transmits has step 2
(it never initiates step 1). -/
theorem c5_handshake_steps (e : Ed25519) (he : e.Sound) (s : String) (w : WalletM)
    (hw : Wallet.fromPrivateKey s = some w) (synctype : String) (now fresh : Nat)
    (st : ClientState) (d : HandshakeMsg) :
    (d.step = 1 →
      (SaitoClient.handleHandshake e w synctype now fresh st d).1 = st ∧
      (∃ r, (SaitoClient.handleHandshake e w synctype now fresh st d).2.1 = [r] ∧
        r.step = 2 ∧ r.challenge_peer = some d.challenge_mine ∧
        r.challenge_proof =
          some (SaitoClient.signChallenge e w d.challenge_mine)) ∧
      verify e (SaitoClient.natToUtf8 d.challenge_mine)
        (SaitoClient.signChallenge e w d.challenge_mine) w.publicKey = true) ∧
    (3 ≤ d.step →
      (SaitoClient.handleHandshake e w synctype now fresh st d).1 =
        { st with handshakeComplete := true } ∧
      (SaitoClient.handleHandshake e w synctype now fresh st d).2.1 = [] ∧
      (SaitoClient.handleHandshake e w synctype now fresh st d).2.2 =
        ["handshake-complete"]) ∧
    (d.step ≠ 1 → d.step < 3 →
      SaitoClient.handleHandshake e w synctype now fresh st d = (st, [], [])) ∧
    (∀ m ∈ (SaitoClient.handleHandshake e w synctype now fresh st d).2.1,
      m.step = 2) := by
  refine ⟨?_, ?_, ?_, ?_⟩
  · intro h1
    unfold SaitoClient.handleHandshake
    rw [if_pos h1]
    exact ⟨rfl, ⟨_, rfl, rfl, rfl, rfl⟩,
      verify_wallet_sign e he s w hw (SaitoClient.natToUtf8 d.challenge_mine)⟩
  · intro h3
    unfold SaitoClient.handleHandshake
    rw [if_neg (by omega), if_pos h3]
    exact ⟨rfl, rfl, rfl⟩
  · intro hne hlt
    unfold SaitoClient.handleHandshake
    rw [if_neg hne, if_neg (by omega)]
  · intro m hm
    unfold SaitoClient.handleHandshake at hm
    by_cases h1 : d.step = 1
    · rw [if_pos h1] at hm
      simp only [List.mem_singleton] at hm
      rw [hm]
    · rw [if_neg h1] at hm
      by_cases h3 : 3 ≤ d.step
      · rw [if_pos h3] at hm
        exact absurd hm (by simp)
      · rw [if_neg h3] at hm
        exact absurd hm (by simp)

/-- Witness for C5 at the trivial Ed25519 instance, the all-zero wallet
and a concrete step-1 message. -/
theorem c5_handshake_steps_witness :
    verify trivialEd (SaitoClient.natToUtf8 msgStep1.challenge_mine)
      (SaitoClient.signChallenge trivialEd wZero msgStep1.challenge_mine)
      wZero.publicKey = true :=
  ((c5_handshake_steps trivialEd trivialEd_sound zeroSk wZero fromPrivateKey_zeroSk
    "none" 0 7 stInit msgStep1).1 rfl).2.2

/-- C6: the promise returned by `connect()` rejects with the handshake
timeout error when completion is not signalled within 30 000 ms of the
call (whatever the socket did), and resolves — never rejecting later —
when completion is signalled before that deadline. -/
theorem c6_connect_timeout (hcTime : Option Nat) (reset : Bool) :
    ((∀ t, hcTime = some t → 30000 ≤ t) →
      SaitoClient.connectOutcome hcTime reset =
        SaitoClient.ConnectOutcome.rejectedHandshakeTimeout) ∧
    (∀ t, hcTime = some t → t < 30000 →
      SaitoClient.connectOutcome hcTime reset =
        SaitoClient.ConnectOutcome.resolved) := by
  constructor
  · intro h
    cases hcTime with
    | none => rfl
    | some t =>
      have ht := h t rfl
      simp [SaitoClient.connectOutcome, SaitoClient.flagAtDeadline,
        show ¬(t < 30000) by omega]
  · intro t ht hlt
    subst ht
    simp [SaitoClient.connectOutcome, hlt]

/-- Witness for C6: a never-signalled handshake rejects at the deadline;
completion at 5 ms resolves. -/
theorem c6_connect_timeout_witness :
    SaitoClient.connectOutcome none false =
      SaitoClient.ConnectOutcome.rejectedHandshakeTimeout ∧
    SaitoClient.connectOutcome (some 5) false =
      SaitoClient.ConnectOutcome.resolved :=
  ⟨(c6_connect_timeout none false).1 (fun t ht => Option.noConfusion ht),
   (c6_connect_timeout (some 5) false).2 5 rfl (by decide)⟩

/-- C7: a close schedules exactly one reconnect attempt iff
`autoReconnect` is set and the attempt counter is strictly below the
maximum of 10; a scheduling close increments the counter and a
non-scheduling close leaves it unchanged; a successful open resets the
counter to 0; and a close following `disconnect()` never schedules. -/
theorem c7_reconnect_policy (st : ClientState)
    (hmax : st.maxReconnectAttempts = 10) :
    ((SaitoClient.handleClose st).2 = true ↔
      st.autoReconnect = true ∧ st.reconnectAttempts < 10) ∧
    ((SaitoClient.handleClose st).2 = true →
      (SaitoClient.handleClose st).1.reconnectAttempts =
        st.reconnectAttempts + 1) ∧
    ((SaitoClient.handleClose st).2 = false →
      (SaitoClient.handleClose st).1.reconnectAttempts = st.reconnectAttempts) ∧
    (SaitoClient.handleOpen st).reconnectAttempts = 0 ∧
    (SaitoClient.handleClose (SaitoClient.disconnect st)).2 = false := by
  have hspec : SaitoClient.handleClose st =
      if st.autoReconnect && decide (st.reconnectAttempts < st.maxReconnectAttempts)
      then ({ st with connected := false, handshakeComplete := false,
                      socketOpen := false,
                      reconnectAttempts := st.reconnectAttempts + 1 }, true)
      else ({ st with connected := false, handshakeComplete := false,
                      socketOpen := false }, false) := by
    unfold SaitoClient.handleClose
    dsimp only
  refine ⟨?_, ?_, ?_, rfl, ?_⟩
  · by_cases hA : st.autoReconnect <;>
      by_cases hR : st.reconnectAttempts < 10 <;>
        simp [hspec, hmax, hA, hR]
  · intro h2
    by_cases hA : st.autoReconnect <;>
      by_cases hR : st.reconnectAttempts < 10 <;>
        simp [hspec, hmax, hA, hR] at h2 ⊢
  · intro h2
    by_cases hA : st.autoReconnect <;>
      by_cases hR : st.reconnectAttempts < 10 <;>
        simp [hspec, hmax, hA, hR] at h2 ⊢
  · have hd : (SaitoClient.disconnect st).autoReconnect = false := rfl
    unfold SaitoClient.handleClose
    simp [hd]

/-- Witness for C7 at a fresh client state. -/
theorem c7_reconnect_policy_witness :
    (SaitoClient.handleClose stInit).2 = true ∧
    (SaitoClient.handleClose (SaitoClient.disconnect stInit)).2 = false :=
  ⟨((c7_reconnect_policy stInit rfl).1).mpr ⟨rfl, by decide⟩,
   (c7_reconnect_policy stInit rfl).2.2.2.2⟩

/-- C8: wallet construction fails exactly when the hex-decoded private
key is not 64 bytes — in particular for `invalid-key` and the empty
string — and a successful construction stores the key string and the
public key derived from its second half. -/
theorem c8_fromPrivateKey (s : String) :
    (Wallet.fromPrivateKey s = none ↔ (hexDecode s).length ≠ 64) ∧
    (∀ w, Wallet.fromPrivateKey s = some w →
      w.privateKey = s ∧ w.publicKey = hexEncode ((hexDecode s).drop 32)) ∧
    Wallet.fromPrivateKey "invalid-key" = none ∧
    Wallet.fromPrivateKey "" = none := by
  refine ⟨?_, ?_, by decide, by decide⟩
  · by_cases h : (hexDecode s).length = 64 <;>
      simp [Wallet.fromPrivateKey, isValidPrivateKey, h]
  · intro w hw
    exact ⟨(fromPrivateKey_inv hw).2.1, (fromPrivateKey_inv hw).2.2⟩

/-- Witness for C8 at the all-zero 64-byte key. -/
theorem c8_fromPrivateKey_witness :
    wZero.privateKey = zeroSk ∧
      wZero.publicKey = hexEncode ((hexDecode zeroSk).drop 32) :=
  (c8_fromPrivateKey zeroSk).2.1 wZero fromPrivateKey_zeroSk

/-- C9: `verify` is a total boolean function; when the signature does
not decode to 64 bytes or the public key does not decode to 32 bytes,
the inner nacl call throws and the catch clause returns `false`. -/
theorem c9_verify_total (e : Ed25519) (data : List Nat)
    (signature publicKey : String)
    (h : (hexDecode signature).length ≠ 64 ∨ (hexDecode publicKey).length ≠ 32) :
    (∃ msg, verifyE e data signature publicKey = Except.error msg) ∧
    verify e data signature publicKey = false := by
  unfold verify verifyE
  by_cases hp : (hexDecode publicKey).length = 32
  · have hs : (hexDecode signature).length ≠ 64 := by tauto
    rw [if_neg (not_not_intro hp), if_pos hs]
    exact ⟨⟨_, rfl⟩, rfl⟩
  · rw [if_pos hp]
    exact ⟨⟨_, rfl⟩, rfl⟩

/-- Witness for C9 at a malformed signature string. -/
theorem c9_verify_total_witness :
    verify trivialEd [] "zz" "" = false :=
  (c9_verify_total trivialEd [] "zz" "" (by decide)).2

/-- After any event, a state whose `autoReconnect` flag is cleared keeps
it cleared and schedules nothing. -/
theorem stepEvent_autoReconnect_false (st : ClientState)
    (h : st.autoReconnect = false) (ev : SaitoClient.ClientEvent) :
    (SaitoClient.stepEvent st ev).1.autoReconnect = false ∧
    (SaitoClient.stepEvent st ev).2 = false := by
  cases ev <;>
    simp [SaitoClient.stepEvent, SaitoClient.handleOpen, SaitoClient.handleClose,
      SaitoClient.disconnect, h]

theorem runEvents_autoReconnect_false :
    ∀ (evs : List SaitoClient.ClientEvent) (s0 : ClientState),
      s0.autoReconnect = false →
      (SaitoClient.runEvents s0 evs).1.autoReconnect = false ∧
      (SaitoClient.runEvents s0 evs).2 = false
  | [], _, h => ⟨h, rfl⟩
  | ev :: rest, s0, h => by
    have hstep := stepEvent_autoReconnect_false s0 h ev
    have ih := runEvents_autoReconnect_false rest (SaitoClient.stepEvent s0 ev).1
      hstep.1
    simp [SaitoClient.runEvents, hstep.2, ih.1, ih.2]

/-- C10: once `disconnect()` has run, the stored `autoReconnect`
configuration flag stays false through every later socket open, close,
`connect()` and `disconnect()` event, and no later close ever schedules
an automatic reconnect. -/
theorem c10_disconnect_permanent (st : ClientState)
    (evs : List SaitoClient.ClientEvent) :
    (SaitoClient.runEvents (SaitoClient.disconnect st) evs).1.autoReconnect =
      false ∧
    (SaitoClient.runEvents (SaitoClient.disconnect st) evs).2 = false :=
  runEvents_autoReconnect_false evs (SaitoClient.disconnect st) rfl

end Saito
